import Mathlib

/-!
Verification development for `src/plugins/adaptiveintroskip/skip_helper.py` of the
MoviePilot-Plugins repository.

The Python module is a thin Emby API client plus two pure keyword filters.  We embed it
shallowly:

* Python strings become Lean `String` (or `List Char` where character-level reasoning is
  needed); Python's substring test `kw in path` becomes `strIn`.
* Each HTTP request that the Python code performs is modelled by an `Except String _`
  argument: `.ok v` is a completed request whose parsed JSON payload is `v`, and
  `.error msg` is a request (or its `.json()` parsing) raising an exception with message
  `msg`.  The `try/except` of each method becomes the `match` on these arguments.
* JSON payloads are modelled by structures holding exactly the fields the code reads;
  a missing field would raise `KeyError`, which is subsumed by the `.error` case.
* Time values are modelled at microsecond granularity (the resolution of Python's
  `datetime`/`timedelta`): a `t : Nat` stands for a duration of `t` microseconds.
* The division `RunTimeTicks / 10000000` is Python true division, modelled in `ℚ`.
-/

/-- Result dictionary `{'ret': ..., 'msg': ...}` returned by the keyword filters. -/
structure KwResult where
  ret : Bool
  msg : String
  deriving DecidableEq

/-- `isPre a b` is true iff the character list `a` is an initial segment of `b`. -/
def isPre : List Char → List Char → Bool
  | [], _ => true
  | _ :: _, [] => false
  | a :: as, b :: bs => a == b && isPre as bs

/-- `subList kw p` is true iff `kw` occurs as a contiguous segment of `p`. -/
def subList (kw : List Char) : List Char → Bool
  | [] => isPre kw []
  | c :: rest => isPre kw (c :: rest) || subList kw rest

/-- Python's `kw in path` substring test on strings. -/
def strIn (kw path : String) : Bool := subList kw.data path.data

/-- Helper for `pySplitComma`: `acc` holds the current field, reversed. -/
def splitCommaAux : List Char → List Char → List String
  | [], acc => [String.mk acc.reverse]
  | c :: rest, acc =>
    if c = ',' then String.mk acc.reverse :: splitCommaAux rest []
    else splitCommaAux rest (c :: acc)

/-- Python's `s.split(',')`: the fields of `s` between occurrences of `','`.  In
particular `pySplitComma "" = [""]`. -/
def pySplitComma (s : String) : List String := splitCommaAux s.data []

/-- The `for keyword in keyword_list: if keyword in path: ... break` loop shared by
`include_keyword` and `exclude_keyword`: the first keyword of the list that occurs in
`path`, if any. -/
def findMatch (path : String) : List String → Option String
  | [] => none
  | kw :: rest => if strIn kw path then some kw else findMatch path rest

/-- `include_keyword` from skip_helper.py lines 164-176: split `keywords` on commas and
report the first keyword contained in `path`. -/
def include_keyword (path keywords : String) : KwResult :=
  match findMatch path (pySplitComma keywords) with
  | some kw => ⟨true, kw⟩
  | none => ⟨false, ""⟩

/-- `exclude_keyword` from skip_helper.py lines 179-184: the keyword list is empty when
`keywords` is falsy (the empty string); the first keyword contained in `path` makes the
result `ret = False`. -/
def exclude_keyword (path keywords : String) : KwResult :=
  match findMatch path (if keywords = "" then [] else pySplitComma keywords) with
  | some kw => ⟨false, kw⟩
  | none => ⟨true, ""⟩

/-- The decimal digit character of `d` (for `d < 10`). -/
def digitCh (d : Nat) : Char := Char.ofNat (48 + d)

/-- Fuel-indexed decimal printer; `fuel` bounds the recursion depth. -/
def natDigitsAux : Nat → Nat → List Char
  | 0, _ => []
  | fuel + 1, n =>
    if n < 10 then [digitCh n] else natDigitsAux fuel (n / 10) ++ [digitCh (n % 10)]

/-- Python's `"%d" % n` / `str(n)` for a non-negative integer: decimal digits, no
leading zeros (a single `'0'` for zero). -/
def natDigits (n : Nat) : List Char := natDigitsAux (n + 1) n

/-- Python's `"%0kd" % n`: exactly `k` decimal digits of `n`, zero padded (the low `k`
digits when `n` has more). -/
def fixedDigits : Nat → Nat → List Char
  | 0, _ => []
  | k + 1, n => fixedDigits k (n / 10) ++ [digitCh (n % 10)]

/-- Python's `str(delta)` for `delta = timedelta(microseconds = t)`, `t ≥ 0`:
`timedelta.__str__` renders `H:MM:SS`, prepends `D day(s), ` when the day count is
nonzero, and appends `.uuuuuu` when the microsecond part is nonzero. -/
def timedeltaStr (t : Nat) : List Char :=
  let days := t / 86400000000
  let secs := t / 1000000 % 86400
  let usec := t % 1000000
  let hh := secs / 60 / 60
  let mm := secs / 60 % 60
  let ss := secs % 60
  let hms := natDigits hh ++ ':' :: fixedDigits 2 mm ++ ':' :: fixedDigits 2 ss
  let withDays :=
    if days = 0 then hms
    else natDigits days ++ (if days = 1 then " day, ".data else " days, ".data) ++ hms
  if usec = 0 then withDays else withDays ++ '.' :: fixedDigits 6 usec

/-- Python's `str(usec).zfill(6)[:3]`. -/
def zfillSixTakeThree (u : Nat) : List Char :=
  (List.replicate (6 - (natDigits u).length) '0' ++ natDigits u).take 3

/-- `EmbySkipHelper.format_time` from skip_helper.py lines 52-57, on a duration of `t`
microseconds: `str(delta).split(".")[0]` (the prefix of `str(delta)` before the first
dot) followed by a dot and `str(delta.microseconds).zfill(6)[:3]`. -/
def format_time (t : Nat) : List Char :=
  (timedeltaStr t).takeWhile (fun c => c != '.') ++ '.' :: zfillSixTakeThree (t % 1000000)

/-- Modelled from the claim wording for C8: an `H:MM:SS.mmm` timestamp of the duration
`t` microseconds — total hours, two-digit minutes and seconds, a dot, and the first
three digits of the six-digit zero-padded microsecond count. -/
def claimFormat (t : Nat) : List Char :=
  natDigits (t / 3600000000) ++ ':' :: fixedDigits 2 (t / 60000000 % 60) ++
    ':' :: fixedDigits 2 (t / 1000000 % 60) ++ '.' :: fixedDigits 3 (t % 1000000 / 1000)

/-- One entry of the `Items` array of the `Shows/{id}/Episodes` response, with the
fields the code reads. -/
structure Episode where
  Id : Int
  IndexNumber : Int
  ParentIndexNumber : Int
  deriving DecidableEq

/-- The episode loop of `get_next_episode_ids`: collect `episode['Id']` for each episode
with `IndexNumber >= episode_id` and `season_id == ParentIndexNumber`, in order. -/
def collectNextIds (season_id episode_id : Int) : List Episode → List Int
  | [] => []
  | e :: rest =>
    if episode_id ≤ e.IndexNumber ∧ season_id = e.ParentIndexNumber then
      e.Id :: collectNextIds season_id episode_id rest
    else collectNextIds season_id episode_id rest

/-- `EmbySkipHelper.get_next_episode_ids` from skip_helper.py lines 59-74. -/
def get_next_episode_ids (season_id episode_id : Int)
    (resp : Except String (List Episode)) : List Int :=
  match resp with
  | .error _ => []
  | .ok eps => collectNextIds season_id episode_id eps

/-- The episode loop of `get_current_video_item_id`: the `Id` of the first episode with
`IndexNumber == episode_id` and `ParentIndexNumber == season_id`. -/
def findCurrentId (season_id episode_id : Int) : List Episode → Option Int
  | [] => none
  | e :: rest =>
    if e.IndexNumber = episode_id ∧ e.ParentIndexNumber = season_id then some e.Id
    else findCurrentId season_id episode_id rest

/-- `EmbySkipHelper.get_current_video_item_id` from skip_helper.py lines 76-90. -/
def get_current_video_item_id (season_id episode_id : Int)
    (resp : Except String (List Episode)) : Int :=
  match resp with
  | .error _ => -1
  | .ok eps =>
    match findCurrentId season_id episode_id eps with
    | some i => i
    | none => -1

/-- One entry of the `MediaSources` array of the `PlaybackInfo` response. -/
structure MediaSource where
  RunTimeTicks : Nat
  deriving DecidableEq

/-- The `PlaybackInfo` response payload. -/
structure PlaybackInfo where
  MediaSources : List MediaSource
  deriving DecidableEq

/-- `EmbySkipHelper.get_total_time` from skip_helper.py lines 138-161: when the
`MediaSources` list is non-empty, the first source's `RunTimeTicks` divided (true
division) by 10,000,000; otherwise the sentinel 0. -/
def get_total_time (resp : Except String PlaybackInfo) : ℚ :=
  match resp with
  | .error _ => 0
  | .ok info =>
    match info.MediaSources with
    | [] => 0
    | src :: _ => (src.RunTimeTicks : ℚ) / 10000000

/-- One entry of the `chapters` array of the `chapter_api/get_chapters` response. -/
structure Chapter where
  Index : Int
  MarkerType : String
  deriving DecidableEq

/-- An HTTP request issued by the chapter-update methods, in issue order. -/
inductive Req where
  | getChapters (item_id : Int)
  | removeChapters (item_id : Int) (index_list : List Int)
  | addChapter (item_id : Int) (name : String) (mtype : String) (time : List Char)
  deriving DecidableEq

/-- The list comprehension of `update_intro`: indices of chapters whose `MarkerType`
starts with `'Intro'`. -/
def introTags : List Chapter → List Int
  | [] => []
  | c :: rest =>
    if c.MarkerType.startsWith "Intro" then c.Index :: introTags rest else introTags rest

/-- The list comprehension of `update_credits`: indices of chapters whose `MarkerType`
starts with `'Credits'`. -/
def creditsTags : List Chapter → List Int
  | [] => []
  | c :: rest =>
    if c.MarkerType.startsWith "Credits" then c.Index :: creditsTags rest
    else creditsTags rest

/-- `EmbySkipHelper.update_intro` from skip_helper.py lines 92-115, on an intro end of
`intro_end` microseconds.  Returns the requests issued (in order) and the return value:
fetch the chapters, remove the old `Intro*` markers, add an `intro_start` marker at the
literal time `00:00:00.000`, add an `intro_end` marker at `format_time intro_end`, and
return `intro_end`; any raising request aborts the method with `None`. -/
def update_intro (item_id : Int) (intro_end : Nat) (fetch : Except String (List Chapter))
    (rmv add1 add2 : Except String Unit) : List Req × Option Nat :=
  match fetch with
  | .error _ => ([Req.getChapters item_id], none)
  | .ok chapters =>
    let t1 := [Req.getChapters item_id, Req.removeChapters item_id (introTags chapters)]
    match rmv with
    | .error _ => (t1, none)
    | .ok _ =>
      let t2 := t1 ++
        [Req.addChapter item_id "%E7%89%87%E5%A4%B4" "intro_start" "00:00:00.000".data]
      match add1 with
      | .error _ => (t2, none)
      | .ok _ =>
        let t3 := t2 ++ [Req.addChapter item_id "%E7%89%87%E5%A4%B4%E7%BB%93%E6%9D%9F"
          "intro_end" (format_time intro_end)]
        match add2 with
        | .error _ => (t3, none)
        | .ok _ => (t3, some intro_end)

/-- `EmbySkipHelper.update_credits` from skip_helper.py lines 117-136, on a credits
start of `credits_start` microseconds: fetch the chapters, remove the old `Credits*`
markers, add a `credits_start` marker at `format_time credits_start`, and return
`credits_start`; any raising request aborts the method with `None`. -/
def update_credits (item_id : Int) (credits_start : Nat)
    (fetch : Except String (List Chapter)) (rmv add1 : Except String Unit) :
    List Req × Option Nat :=
  match fetch with
  | .error _ => ([Req.getChapters item_id], none)
  | .ok chapters =>
    let t1 :=
      [Req.getChapters item_id, Req.removeChapters item_id (creditsTags chapters)]
    match rmv with
    | .error _ => (t1, none)
    | .ok _ =>
      let t2 := t1 ++
        [Req.addChapter item_id "%E7%89%87%E5%B0%BE" "credits_start"
          (format_time credits_start)]
      match add1 with
      | .error _ => (t2, none)
      | .ok _ => (t2, some credits_start)

/-- A request result that raised (the guard of the `except` branches). -/
def isErr {α : Type} : Except String α → Bool
  | .error _ => true
  | .ok _ => false

theorem subList_nil_left (cs : List Char) : subList [] cs = true := by
  cases cs <;> simp [subList, isPre]

theorem findMatch_eq_none (path : String) (l : List String) :
    findMatch path l = none ↔ ∀ kw ∈ l, strIn kw path = false := by
  induction l with
  | nil => simp [findMatch]
  | cons k rest ih =>
    by_cases h : strIn k path
    · simp [findMatch, h]
    · have hk : strIn k path = false := by simpa using h
      simp [findMatch, hk, ih, List.forall_mem_cons]

theorem findMatch_first (path : String) :
    ∀ pre kw post, (∀ k ∈ pre, strIn k path = false) → strIn kw path = true →
      findMatch path (pre ++ kw :: post) = some kw := by
  intro pre
  induction pre with
  | nil =>
    intro kw post _ hkw
    simp [findMatch, hkw]
  | cons a as ih =>
    intro kw post hpre hkw
    have ha : strIn a path = false := hpre a (List.mem_cons_self a as)
    simp only [List.cons_append, findMatch, ha]
    simp only [Bool.false_eq_true, if_false]
    exact ih kw post (fun k hk => hpre k (List.mem_cons_of_mem _ hk)) hkw

/-- Claim C2: `include_keyword path keywords` returns `⟨false, ""⟩` exactly when no
element of `pySplitComma keywords` occurs in `path`, and returns `⟨true, kw⟩` for the
first element `kw` of the split that occurs in `path` when one exists. -/
theorem include_keyword_spec (path keywords : String) :
    (include_keyword path keywords = ⟨false, ""⟩ ↔
      ∀ kw ∈ pySplitComma keywords, strIn kw path = false) ∧
    (∀ pre kw post, pySplitComma keywords = pre ++ kw :: post →
      (∀ k ∈ pre, strIn k path = false) → strIn kw path = true →
      include_keyword path keywords = ⟨true, kw⟩) := by
  constructor
  · rw [← findMatch_eq_none]
    unfold include_keyword
    cases h : findMatch path (pySplitComma keywords) <;> simp [h]
  · intro pre kw post hsplit hpre hkw
    unfold include_keyword
    rw [hsplit, findMatch_first path pre kw post hpre hkw]

/-- Witness for C2 at a concrete path and keyword list. -/
theorem include_keyword_spec_witness :
    pySplitComma "xyz,tro" = ["xyz"] ++ "tro" :: [] ∧
    include_keyword "movie/tro.mkv" "xyz,tro" = ⟨true, "tro"⟩ :=
  ⟨by decide, (include_keyword_spec "movie/tro.mkv" "xyz,tro").2 ["xyz"] "tro" []
    (by decide) (by decide) (by decide)⟩

/-- Claim C3: `exclude_keyword path keywords` returns `⟨true, ""⟩` exactly when no
element of the keyword list (empty when `keywords` is the empty string, else the comma
split) occurs in `path`, and returns `⟨false, kw⟩` for the first matching element `kw`
otherwise. -/
theorem exclude_keyword_spec (path keywords : String) :
    (exclude_keyword path keywords = ⟨true, ""⟩ ↔
      ∀ kw ∈ (if keywords = "" then ([] : List String) else pySplitComma keywords),
        strIn kw path = false) ∧
    (∀ pre kw post,
      (if keywords = "" then ([] : List String) else pySplitComma keywords) =
        pre ++ kw :: post →
      (∀ k ∈ pre, strIn k path = false) → strIn kw path = true →
      exclude_keyword path keywords = ⟨false, kw⟩) := by
  constructor
  · rw [← findMatch_eq_none]
    unfold exclude_keyword
    cases h : findMatch path
        (if keywords = "" then ([] : List String) else pySplitComma keywords) <;>
      simp [h]
  · intro pre kw post hsplit hpre hkw
    unfold exclude_keyword
    rw [hsplit, findMatch_first path pre kw post hpre hkw]

/-- Witness for C3 at a concrete path and keyword list. -/
theorem exclude_keyword_spec_witness :
    (if ("sample,trailer" : String) = "" then ([] : List String)
      else pySplitComma "sample,trailer") = ["sample"] ++ "trailer" :: [] ∧
    exclude_keyword "tv/trailer.mp4" "sample,trailer" = ⟨false, "trailer"⟩ :=
  ⟨by decide, (exclude_keyword_spec "tv/trailer.mp4" "sample,trailer").2
    ["sample"] "trailer" [] (by decide) (by decide) (by decide)⟩

/-- Claim C9: on an empty keywords string, `include_keyword` splits it into the single
empty keyword, which occurs in every path, so the result is `⟨true, ""⟩`, while
`exclude_keyword` treats it as the empty keyword list and also returns `⟨true, ""⟩`. -/
theorem keyword_filters_empty_keywords (path : String) :
    include_keyword path "" = ⟨true, ""⟩ ∧ exclude_keyword path "" = ⟨true, ""⟩ := by
  constructor
  · have h : pySplitComma "" = [""] := rfl
    unfold include_keyword
    rw [h]
    simp [findMatch, strIn, subList_nil_left]
  · unfold exclude_keyword
    simp [findMatch]

/-- Claim C10: for a non-empty keywords string the two filters see the same keyword
list, so their `ret` fields are boolean negations of each other. -/
theorem exclude_ret_neg_include_ret (path keywords : String) (h : keywords ≠ "") :
    (exclude_keyword path keywords).ret = !(include_keyword path keywords).ret := by
  unfold exclude_keyword include_keyword
  rw [if_neg h]
  cases findMatch path (pySplitComma keywords) <;> simp

/-- Witness for C10 at a concrete path and keyword list. -/
theorem exclude_ret_neg_include_ret_witness :
    ("a" : String) ≠ "" ∧
    (exclude_keyword "x" "a").ret = !(include_keyword "x" "a").ret :=
  ⟨by decide, exclude_ret_neg_include_ret "x" "a" (by decide)⟩

theorem collectNextIds_eq_filter (season_id episode_id : Int) (eps : List Episode) :
    collectNextIds season_id episode_id eps =
      (eps.filter fun ep =>
        decide (episode_id ≤ ep.IndexNumber ∧ ep.ParentIndexNumber = season_id)).map
        Episode.Id := by
  induction eps with
  | nil => rfl
  | cons e rest ih =>
    by_cases hc : episode_id ≤ e.IndexNumber ∧ season_id = e.ParentIndexNumber
    · have hd : decide (episode_id ≤ e.IndexNumber ∧ e.ParentIndexNumber = season_id) =
          true := by
        exact decide_eq_true ⟨hc.1, hc.2.symm⟩
      simp only [collectNextIds, if_pos hc, ih, List.filter_cons, hd, if_true,
        List.map_cons]
    · have hd : decide (episode_id ≤ e.IndexNumber ∧ e.ParentIndexNumber = season_id) =
          false := by
        exact decide_eq_false fun h => hc ⟨h.1, h.2.symm⟩
      simp only [collectNextIds, if_neg hc, ih, List.filter_cons, hd, if_false,
        Bool.false_eq_true]

/-- Claim C6: on a successful episodes response, `get_next_episode_ids` returns the
`Id` fields, in response order, of exactly the episodes with `IndexNumber ≥ episode_id`
and `ParentIndexNumber = season_id`; it returns `[]` when no episode qualifies and on
an exception. -/
theorem get_next_episode_ids_spec (season_id episode_id : Int) (eps : List Episode)
    (e : String) :
    get_next_episode_ids season_id episode_id (.ok eps) =
      (eps.filter fun ep =>
        decide (episode_id ≤ ep.IndexNumber ∧ ep.ParentIndexNumber = season_id)).map
        Episode.Id ∧
    ((∀ ep ∈ eps, ¬(episode_id ≤ ep.IndexNumber ∧ ep.ParentIndexNumber = season_id)) →
      get_next_episode_ids season_id episode_id (.ok eps) = []) ∧
    get_next_episode_ids season_id episode_id (.error e) = [] := by
  refine ⟨collectNextIds_eq_filter season_id episode_id eps, ?_, rfl⟩
  intro hnone
  show collectNextIds season_id episode_id eps = []
  rw [collectNextIds_eq_filter]
  rw [List.filter_eq_nil_iff.mpr (fun ep hep => by simpa using hnone ep hep)]
  rfl

/-- Witness for C6 at a concrete response. -/
theorem get_next_episode_ids_spec_witness :
    (∀ ep ∈ [Episode.mk 9 1 1], ¬((3 : Int) ≤ ep.IndexNumber ∧
      ep.ParentIndexNumber = (2 : Int))) ∧
    get_next_episode_ids 2 3 (.ok [Episode.mk 9 1 1]) = [] :=
  ⟨by decide, (get_next_episode_ids_spec 2 3 [Episode.mk 9 1 1] "").2.1 (by decide)⟩

theorem findCurrentId_eq_none (season_id episode_id : Int) (eps : List Episode)
    (h : ∀ x ∈ eps, ¬(x.IndexNumber = episode_id ∧ x.ParentIndexNumber = season_id)) :
    findCurrentId season_id episode_id eps = none := by
  induction eps with
  | nil => rfl
  | cons x rest ih =>
    have hx := h x (List.mem_cons_self x rest)
    simp [findCurrentId, hx]
    exact ih (fun y hy => h y (List.mem_cons_of_mem _ hy))

theorem findCurrentId_first (season_id episode_id : Int) (cur : Episode)
    (post : List Episode) :
    ∀ pre : List Episode,
      (∀ x ∈ pre, ¬(x.IndexNumber = episode_id ∧ x.ParentIndexNumber = season_id)) →
      cur.IndexNumber = episode_id → cur.ParentIndexNumber = season_id →
      findCurrentId season_id episode_id (pre ++ cur :: post) = some cur.Id := by
  intro pre
  induction pre with
  | nil =>
    intro _ h1 h2
    simp [findCurrentId, h1, h2]
  | cons a as ih =>
    intro hpre h1 h2
    have ha := hpre a (List.mem_cons_self a as)
    simp only [List.cons_append, findCurrentId, ha, if_false, if_neg ha]
    exact ih (fun y hy => hpre y (List.mem_cons_of_mem _ hy)) h1 h2

/-- Claim C7: on a successful episodes response, `get_current_video_item_id` returns
the `Id` of the first episode with `IndexNumber = episode_id` and
`ParentIndexNumber = season_id`, and returns `-1` when no episode matches and on an
exception. -/
theorem get_current_video_item_id_spec (season_id episode_id : Int) (e : String)
    (eps pre post : List Episode) (cur : Episode) :
    get_current_video_item_id season_id episode_id (.error e) = -1 ∧
    ((∀ x ∈ eps, ¬(x.IndexNumber = episode_id ∧ x.ParentIndexNumber = season_id)) →
      get_current_video_item_id season_id episode_id (.ok eps) = -1) ∧
    ((∀ x ∈ pre, ¬(x.IndexNumber = episode_id ∧ x.ParentIndexNumber = season_id)) →
      cur.IndexNumber = episode_id → cur.ParentIndexNumber = season_id →
      get_current_video_item_id season_id episode_id (.ok (pre ++ cur :: post)) =
        cur.Id) := by
  refine ⟨rfl, ?_, ?_⟩
  · intro h
    show (match findCurrentId season_id episode_id eps with
      | some i => i
      | none => -1) = -1
    rw [findCurrentId_eq_none season_id episode_id eps h]
  · intro hpre h1 h2
    show (match findCurrentId season_id episode_id (pre ++ cur :: post) with
      | some i => i
      | none => -1) = cur.Id
    rw [findCurrentId_first season_id episode_id cur post pre hpre h1 h2]

/-- Witness for C7 at a concrete response. -/
theorem get_current_video_item_id_spec_witness :
    (∀ x ∈ [Episode.mk 9 1 2], ¬(x.IndexNumber = (3 : Int) ∧
      x.ParentIndexNumber = (2 : Int))) ∧
    (Episode.mk 42 3 2).IndexNumber = (3 : Int) ∧
    (Episode.mk 42 3 2).ParentIndexNumber = (2 : Int) ∧
    get_current_video_item_id 2 3 (.ok ([Episode.mk 9 1 2] ++ Episode.mk 42 3 2 ::
      [Episode.mk 43 4 2])) = (Episode.mk 42 3 2).Id :=
  ⟨by decide, by decide, by decide,
    (get_current_video_item_id_spec 2 3 "" [] [Episode.mk 9 1 2] [Episode.mk 43 4 2]
      (Episode.mk 42 3 2)).2.2 (by decide) (by decide) (by decide)⟩

/-- Claim C4: `get_total_time` returns the first media source's `RunTimeTicks` divided
by 10,000,000 when `MediaSources` is non-empty, and 0 when it is empty. -/
theorem get_total_time_spec (info : PlaybackInfo) :
    (∀ src rest, info.MediaSources = src :: rest →
      get_total_time (.ok info) = (src.RunTimeTicks : ℚ) / 10000000) ∧
    (info.MediaSources = [] → get_total_time (.ok info) = 0) := by
  constructor
  · intro src rest h
    simp [get_total_time, h]
  · intro h
    simp [get_total_time, h]

/-- Witness for C4 at a concrete response. -/
theorem get_total_time_spec_witness :
    (PlaybackInfo.mk [MediaSource.mk 123456789]).MediaSources =
      MediaSource.mk 123456789 :: [] ∧
    get_total_time (.ok (PlaybackInfo.mk [MediaSource.mk 123456789])) =
      ((MediaSource.mk 123456789).RunTimeTicks : ℚ) / 10000000 :=
  ⟨rfl, (get_total_time_spec (PlaybackInfo.mk [MediaSource.mk 123456789])).1
    (MediaSource.mk 123456789) [] rfl⟩

/-- Counterexample to C1 as stated: the claim allows only the sentinels empty list,
`-1`, and `None`, but on exception `get_total_time` (skip_helper.py line 161) returns
`0`, which is none of them — in particular not `-1`, the only claimed sentinel of
numeric type. -/
theorem get_total_time_zero_sentinel :
    get_total_time (.error "boom") = 0 ∧ (0 : ℚ) ≠ -1 := ⟨rfl, by norm_num⟩

/-- Claim C1 (amended): every request-performing method swallows exceptions: whenever
any of its internal requests raises, the method returns a sentinel failure value drawn
from empty list, `-1`, `0`, or `None` — `get_next_episode_ids` returns `[]`,
`get_current_video_item_id` returns `-1`, `get_total_time` returns `0`, and
`update_intro` / `update_credits` return `None`; no exception escapes (the embedded
functions are total with plain result types). -/
theorem sentinels_on_exception (e : String) (season_id episode_id item_id : Int)
    (t : Nat) (fetch : Except String (List Chapter)) (rmv a1 a2 : Except String Unit) :
    get_next_episode_ids season_id episode_id (.error e) = [] ∧
    get_current_video_item_id season_id episode_id (.error e) = -1 ∧
    get_total_time (.error e) = 0 ∧
    ((isErr fetch || isErr rmv || isErr a1 || isErr a2) = true →
      (update_intro item_id t fetch rmv a1 a2).2 = none) ∧
    ((isErr fetch || isErr rmv || isErr a1) = true →
      (update_credits item_id t fetch rmv a1).2 = none) := by
  refine ⟨rfl, rfl, rfl, ?_, ?_⟩
  · intro h
    cases fetch <;> cases rmv <;> cases a1 <;> cases a2 <;>
      simp_all [update_intro, isErr]
  · intro h
    cases fetch <;> cases rmv <;> cases a1 <;> simp_all [update_credits, isErr]

/-- Witness for C1: a raising chapter fetch makes `update_intro` return `None`. -/
theorem sentinels_on_exception_witness :
    (isErr (Except.error "boom" : Except String (List Chapter)) ||
      isErr (Except.ok () : Except String Unit) ||
      isErr (Except.ok () : Except String Unit) ||
      isErr (Except.ok () : Except String Unit)) = true ∧
    (update_intro 7 5 (.error "boom") (.ok ()) (.ok ()) (.ok ())).2 = none :=
  ⟨rfl, (sentinels_on_exception "boom" 1 2 7 5 (.error "boom") (.ok ()) (.ok ())
    (.ok ())).2.2.2.1 rfl⟩

theorem introTags_eq_filter (chapters : List Chapter) :
    introTags chapters =
      (chapters.filter fun c => c.MarkerType.startsWith "Intro").map Chapter.Index := by
  induction chapters with
  | nil => rfl
  | cons c rest ih =>
    by_cases hc : c.MarkerType.startsWith "Intro"
    · simp only [introTags, if_pos hc, ih, List.filter_cons, hc, if_true, List.map_cons]
    · have hcf : c.MarkerType.startsWith "Intro" = false := by simpa using hc
      simp only [introTags, if_neg hc, ih, List.filter_cons, hcf,
        Bool.false_eq_true, if_false]

theorem creditsTags_eq_filter (chapters : List Chapter) :
    creditsTags chapters =
      (chapters.filter fun c => c.MarkerType.startsWith "Credits").map
        Chapter.Index := by
  induction chapters with
  | nil => rfl
  | cons c rest ih =>
    by_cases hc : c.MarkerType.startsWith "Credits"
    · simp only [creditsTags, if_pos hc, ih, List.filter_cons, hc, if_true,
        List.map_cons]
    · have hcf : c.MarkerType.startsWith "Credits" = false := by simpa using hc
      simp only [creditsTags, if_neg hc, ih, List.filter_cons, hcf,
        Bool.false_eq_true, if_false]

/-- Claim C5 (amended): on success, `update_intro` (resp. `update_credits`) issues, in
order, the chapter fetch, one remove request carrying exactly the indices of chapters
whose `MarkerType` starts with `Intro` (resp. `Credits`), and only afterwards the add
requests; the `intro_end` (resp. `credits_start`) timestamp is computed by
`format_time`, while the `intro_start` marker's timestamp is the fixed literal
`00:00:00.000`; the method returns the given value. -/
theorem update_markers_trace (item_id : Int) (t : Nat) (chapters : List Chapter) :
    update_intro item_id t (.ok chapters) (.ok ()) (.ok ()) (.ok ()) =
      ([Req.getChapters item_id,
        Req.removeChapters item_id (introTags chapters),
        Req.addChapter item_id "%E7%89%87%E5%A4%B4" "intro_start" "00:00:00.000".data,
        Req.addChapter item_id "%E7%89%87%E5%A4%B4%E7%BB%93%E6%9D%9F" "intro_end"
          (format_time t)], some t) ∧
    update_credits item_id t (.ok chapters) (.ok ()) (.ok ()) =
      ([Req.getChapters item_id,
        Req.removeChapters item_id (creditsTags chapters),
        Req.addChapter item_id "%E7%89%87%E5%B0%BE" "credits_start" (format_time t)],
        some t) ∧
    introTags chapters =
      (chapters.filter fun c => c.MarkerType.startsWith "Intro").map Chapter.Index ∧
    creditsTags chapters =
      (chapters.filter fun c => c.MarkerType.startsWith "Credits").map Chapter.Index :=
  ⟨rfl, rfl, introTags_eq_filter chapters, creditsTags_eq_filter chapters⟩

/-- Counterexample to C5 as stated: the `intro_start` add request issued by
`update_intro` carries the literal timestamp `00:00:00.000`, which is not the output of
`format_time` on the marker's time 0 (that output is `0:00:00.000`). -/
theorem update_intro_literal_zero_timestamp :
    (update_intro 1 0 (.ok []) (.ok ()) (.ok ()) (.ok ())).1.get? 2 =
      some (Req.addChapter 1 "%E7%89%87%E5%A4%B4" "intro_start" "00:00:00.000".data) ∧
    format_time 0 ≠ "00:00:00.000".data := ⟨rfl, by decide⟩

theorem digitCh_ne_dot : ∀ d, d < 10 → digitCh d ≠ '.' := by decide

theorem natDigitsAux_eq_natDigits :
    ∀ n f, n < f → natDigitsAux f n = natDigits n := by
  intro n
  induction n using Nat.strong_induction_on with
  | _ n ih =>
    intro f hf
    obtain ⟨g, rfl⟩ : ∃ g, f = g + 1 := ⟨f - 1, by omega⟩
    by_cases h10 : n < 10
    · simp [natDigitsAux, natDigits, h10]
    · have hdiv : n / 10 < n := Nat.div_lt_self (by omega) (by omega)
      have h1 : natDigitsAux g (n / 10) = natDigits (n / 10) :=
        ih (n / 10) hdiv g (by omega)
      have h2 : natDigitsAux n (n / 10) = natDigits (n / 10) :=
        ih (n / 10) hdiv n (by omega)
      simp only [natDigitsAux, natDigits, if_neg h10, h1, h2]

theorem natDigits_lt_ten {n : Nat} (h : n < 10) : natDigits n = [digitCh n] := by
  simp [natDigits, natDigitsAux, h]

theorem natDigits_ge_ten {n : Nat} (h : 10 ≤ n) :
    natDigits n = natDigits (n / 10) ++ [digitCh (n % 10)] := by
  have h1 : natDigitsAux n (n / 10) = natDigits (n / 10) :=
    natDigitsAux_eq_natDigits (n / 10) n (by omega)
  calc natDigits n = natDigitsAux (n + 1) n := rfl
    _ = natDigitsAux n (n / 10) ++ [digitCh (n % 10)] := by
        simp [natDigitsAux, Nat.not_lt.mpr h]
    _ = natDigits (n / 10) ++ [digitCh (n % 10)] := by rw [h1]

theorem natDigits_ne_nil (n : Nat) : natDigits n ≠ [] := by
  by_cases h : n < 10
  · rw [natDigits_lt_ten h]; simp
  · rw [natDigits_ge_ten (Nat.not_lt.mp h)]; simp

theorem natDigits_mem_digit : ∀ n, ∀ c ∈ natDigits n, ∃ d, d < 10 ∧ c = digitCh d := by
  intro n
  induction n using Nat.strong_induction_on with
  | _ n ih =>
    intro c hc
    by_cases h : n < 10
    · rw [natDigits_lt_ten h] at hc
      simp at hc
      exact ⟨n, h, hc⟩
    · rw [natDigits_ge_ten (Nat.not_lt.mp h)] at hc
      rcases List.mem_append.mp hc with h1 | h2
      · exact ih (n / 10) (Nat.div_lt_self (by omega) (by omega)) c h1
      · simp at h2
        exact ⟨n % 10, Nat.mod_lt _ (by omega), h2⟩

theorem natDigits_length_le : ∀ k n, n < 10 ^ k → 1 ≤ k → (natDigits n).length ≤ k := by
  intro k
  induction k with
  | zero => intro n _ h1; omega
  | succ k ih =>
    intro n hn _
    by_cases h : n < 10
    · rw [natDigits_lt_ten h]
      simp
    · rw [natDigits_ge_ten (Nat.not_lt.mp h), List.length_append]
      have hk : 1 ≤ k := by
        by_contra hk0
        have hk1 : k = 0 := by omega
        subst hk1
        simp at hn
        omega
      have hdiv : n / 10 < 10 ^ k := by
        rw [Nat.div_lt_iff_lt_mul (by omega : 0 < 10)]
        calc n < 10 ^ (k + 1) := hn
          _ = 10 ^ k * 10 := by ring
      have := ih (n / 10) hdiv hk
      simp only [List.length_cons, List.length_nil]
      omega

theorem fixedDigits_length : ∀ k n, (fixedDigits k n).length = k := by
  intro k
  induction k with
  | zero => intro n; rfl
  | succ k ih => intro n; simp [fixedDigits, ih]

theorem fixedDigits_zero : ∀ k, fixedDigits k 0 = List.replicate k '0' := by
  intro k
  induction k with
  | zero => rfl
  | succ k ih =>
    have hd : digitCh 0 = '0' := rfl
    simp [fixedDigits, ih, hd, List.replicate_succ']

theorem fixedDigits_eq_pad : ∀ k n, (natDigits n).length ≤ k →
    fixedDigits k n = List.replicate (k - (natDigits n).length) '0' ++ natDigits n := by
  intro k
  induction k with
  | zero =>
    intro n hn
    have h1 : 0 < (natDigits n).length := List.length_pos.mpr (natDigits_ne_nil n)
    omega
  | succ k ih =>
    intro n hn
    by_cases h : n < 10
    · rw [natDigits_lt_ten h]
      have hd : n / 10 = 0 := Nat.div_eq_of_lt h
      have hm : n % 10 = n := Nat.mod_eq_of_lt h
      simp only [fixedDigits, hd, hm, fixedDigits_zero, List.length_cons,
        List.length_nil, Nat.add_succ_sub_one]
      simp
    · have h10 := Nat.not_lt.mp h
      rw [natDigits_ge_ten h10] at hn ⊢
      rw [List.length_append] at hn
      simp only [List.length_cons, List.length_nil] at hn
      have hlen : (natDigits (n / 10)).length ≤ k := by omega
      simp only [fixedDigits]
      rw [ih (n / 10) hlen, List.length_append]
      simp only [List.length_cons, List.length_nil]
      rw [List.append_assoc]
      have he : k + 1 - ((natDigits (n / 10)).length + (0 + 1)) =
          k - (natDigits (n / 10)).length := by omega
      rw [he]

theorem fixedDigits_add : ∀ b a n, fixedDigits (a + b) n =
    fixedDigits a (n / 10 ^ b) ++ fixedDigits b (n % 10 ^ b) := by
  intro b
  induction b with
  | zero =>
    intro a n
    simp [fixedDigits]
  | succ b ih =>
    intro a n
    have e1 : a + (b + 1) = (a + b) + 1 := by omega
    rw [e1]
    simp only [fixedDigits]
    rw [ih a (n / 10)]
    have e2 : n / 10 / 10 ^ b = n / 10 ^ (b + 1) := by
      rw [Nat.div_div_eq_div_mul, pow_succ]
      ring_nf
    have e3 : n / 10 % 10 ^ b = n % 10 ^ (b + 1) / 10 := by
      have := Nat.mod_mul_right_div_self n 10 (10 ^ b)
      rw [pow_succ, mul_comm]
      omega
    have e4 : n % 10 = n % 10 ^ (b + 1) % 10 := by
      rw [Nat.mod_mod_of_dvd]
      exact ⟨10 ^ b, by rw [pow_succ]; ring⟩
    rw [e2, List.append_assoc]
    congr 1
    rw [e3]
    congr 1
    rw [e4]

theorem fixedDigits_six_take_three (n : Nat) :
    (fixedDigits 6 n).take 3 = fixedDigits 3 (n / 1000) := by
  have h := fixedDigits_add 3 3 n
  rw [show (6 : Nat) = 3 + 3 from rfl, h, show (10 : Nat) ^ 3 = 1000 from by norm_num]
  have ht := List.take_left (fixedDigits 3 (n / 1000)) (fixedDigits 3 (n % 1000))
  rw [fixedDigits_length] at ht
  exact ht

theorem mem_fixedDigits_digit :
    ∀ k n c, c ∈ fixedDigits k n → ∃ d, d < 10 ∧ c = digitCh d := by
  intro k
  induction k with
  | zero => intro n c hc; simp [fixedDigits] at hc
  | succ k ih =>
    intro n c hc
    simp only [fixedDigits] at hc
    rcases List.mem_append.mp hc with h1 | h2
    · exact ih _ c h1
    · simp at h2
      exact ⟨n % 10, Nat.mod_lt _ (by omega), h2⟩

theorem takeWhile_append_all {p : Char → Bool} :
    ∀ a b : List Char, (∀ c ∈ a, p c = true) →
      (a ++ b).takeWhile p = a ++ b.takeWhile p := by
  intro a
  induction a with
  | nil => intro b _; rfl
  | cons x xs ih =>
    intro b h
    have hx : p x = true := h x (List.mem_cons_self x xs)
    simp only [List.cons_append, List.takeWhile_cons_of_pos hx]
    rw [ih b (fun c hc => h c (List.mem_cons_of_mem _ hc))]

theorem takeWhile_all {p : Char → Bool} (a : List Char) (h : ∀ c ∈ a, p c = true) :
    a.takeWhile p = a := by
  have := takeWhile_append_all a [] h
  simpa using this

theorem zfill_eq_fixedDigits (u : Nat) (h : u < 1000000) :
    zfillSixTakeThree u = fixedDigits 3 (u / 1000) := by
  have h6 : (natDigits u).length ≤ 6 := by
    apply natDigits_length_le 6 u ?_ (by omega)
    have hp : (10 : Nat) ^ 6 = 1000000 := by norm_num
    omega
  unfold zfillSixTakeThree
  rw [← fixedDigits_eq_pad 6 u h6]
  exact fixedDigits_six_take_three u

theorem hms_no_dot (x y z : Nat) :
    ∀ c ∈ natDigits x ++ ':' :: fixedDigits 2 y ++ ':' :: fixedDigits 2 z,
      (c != '.') = true := by
  intro c hc
  rw [bne_iff_ne]
  rcases List.mem_append.mp hc with h | h
  · rcases List.mem_append.mp h with h | h
    · obtain ⟨d, hd, rfl⟩ := natDigits_mem_digit x c h
      exact digitCh_ne_dot d hd
    · rcases List.mem_cons.mp h with rfl | h
      · decide
      · obtain ⟨d, hd, rfl⟩ := mem_fixedDigits_digit 2 y c h
        exact digitCh_ne_dot d hd
  · rcases List.mem_cons.mp h with rfl | h
    · decide
    · obtain ⟨d, hd, rfl⟩ := mem_fixedDigits_digit 2 z c h
      exact digitCh_ne_dot d hd

/-- Claim C8 (amended): for every duration below one day (86400 seconds, i.e.
86400000000 microseconds), `format_time` returns the `H:MM:SS.mmm` timestamp of the
claim — total hours, two-digit minutes and seconds, a dot, and the first three digits
of the six-digit zero-padded microsecond count.  (At one day and beyond, Python's
`str(timedelta)` switches to a `D day(s), H:MM:SS` rendering and the claimed shape
fails.) -/
theorem format_time_hms (t : Nat) (h : t < 86400000000) :
    format_time t = claimFormat t := by
  have hdays : t / 86400000000 = 0 := Nat.div_eq_of_lt h
  have hsecs_lt : t / 1000000 < 86400 := by
    rw [Nat.div_lt_iff_lt_mul (by omega : 0 < 1000000)]
    omega
  have hsecs : t / 1000000 % 86400 = t / 1000000 := Nat.mod_eq_of_lt hsecs_lt
  have hu6 : t % 1000000 < 1000000 := Nat.mod_lt _ (by omega)
  have e1 : t / 1000000 / 60 / 60 = t / 3600000000 := by
    rw [Nat.div_div_eq_div_mul, Nat.div_div_eq_div_mul]
  have e2 : t / 1000000 / 60 % 60 = t / 60000000 % 60 := by
    rw [Nat.div_div_eq_div_mul]
  unfold format_time timedeltaStr claimFormat
  simp only [hdays, hsecs, if_true]
  by_cases hu : t % 1000000 = 0
  · rw [if_pos hu, takeWhile_all _ (hms_no_dot _ _ _)]
    rw [zfill_eq_fixedDigits _ hu6, e1, e2]
  · rw [if_neg hu, takeWhile_append_all _ _ (hms_no_dot _ _ _),
      List.takeWhile_cons_of_neg (by decide), List.append_nil]
    rw [zfill_eq_fixedDigits _ hu6, e1, e2]

/-- Witness for C8 at 1 h 1 min 1.234567 s: the formatted string is `1:01:01.234`. -/
theorem format_time_hms_witness :
    3661234567 < 86400000000 ∧ format_time 3661234567 = claimFormat 3661234567 :=
  ⟨by decide, format_time_hms 3661234567 (by decide)⟩

/-- Counterexample to C8 as stated: at exactly one day `format_time` produces
`1 day, 0:00:00.000`, not the claimed `24:00:00.000`. -/
theorem format_time_day_rollover :
    format_time 86400000000 ≠ claimFormat 86400000000 := by decide
